import Mathlib

/-!
Verification of the acquisition concurrency engine of the investment-rag
repository (data_collection core): the rate limiter, the two-tier cache
manager and the collection orchestrator.  Each definition is a shallow
embedding of the corresponding Python code in
`src/data_collection/src/utils/rate_limiter.py`,
`src/data_collection/src/utils/cache_manager.py` and
`src/data_collection/src/services/data_collector.py`.
Times are rationals (seconds, as produced by `time.time()`), token counts
are integers (they are integers in the source: an integer initial value,
integer refill increments, decrements by one), and fallible operations
return `Except`.
-/

set_option autoImplicit false

namespace InvestmentRag

/-- Python `int()` applied to a rational number: truncation toward zero
(`int(2.7) = 2`, `int(-2.7) = -2`). -/
def pyInt (q : ℚ) : ℤ := if 0 ≤ q then ⌊q⌋ else ⌈q⌉

/-- Python truthiness of an optional integer configuration value:
`None` and `0` are falsy, every other integer is truthy. -/
def optTruthy : Option ℤ → Bool
  | none => false
  | some n => n != 0

/-- Python `x or d` for an optional integer `x`: the default is used when
`x` is falsy (`None` or `0`). -/
def orDefault (x : Option ℤ) (d : ℤ) : ℤ :=
  match x with
  | some n => if n != 0 then n else d
  | none => d

/-! ## RateLimiter (`src/data_collection/src/utils/rate_limiter.py`) -/

/-- State of `RateLimiter`: configuration plus the two token buckets, the
refill clocks and the recorded call timestamps.  `dayBucket = none` models
the Python value `float('inf')` (no day cap configured). -/
structure RateLimiter where
  callsPerMinute : ℤ
  callsPerDay : Option ℤ
  burstSize : ℤ
  minuteBucket : ℤ
  dayBucket : Option ℤ
  lastMinuteRefill : ℚ
  lastDayRefill : ℚ
  minuteCalls : List ℚ
  dayCalls : List ℚ
deriving Repr, DecidableEq

/-- Embeds `RateLimiter.__init__` at construction time `now`:
`burst_size or calls_per_minute` for the burst, the minute bucket starts
full, the day bucket is `calls_per_day` when truthy and infinite
(modelled as `none`) otherwise, both refill clocks start at `now`. -/
def mkRateLimiter (callsPerMinute : ℤ) (callsPerDay : Option ℤ)
    (burstSize : Option ℤ) (now : ℚ) : RateLimiter :=
  let burst := orDefault burstSize callsPerMinute
  { callsPerMinute := callsPerMinute
    callsPerDay := callsPerDay
    burstSize := burst
    minuteBucket := burst
    dayBucket := if optTruthy callsPerDay then callsPerDay else none
    lastMinuteRefill := now
    lastDayRefill := now
    minuteCalls := []
    dayCalls := [] }

/-- Embeds the `while queue and queue[0] < cutoff: queue.popleft()` loops of
`RateLimiter._cleanup_calls`: drop leading timestamps strictly below the
cutoff, stopping at the first timestamp that is not. -/
def dropOld (cutoff : ℚ) : List ℚ → List ℚ
  | [] => []
  | t :: ts => if t < cutoff then dropOld cutoff ts else t :: ts

/-- Embeds `RateLimiter._cleanup_calls`: prune minute calls older than 60
seconds, and, only when a day cap is configured (truthy `calls_per_day`),
prune day calls older than 24 hours. -/
def cleanupCalls (s : RateLimiter) (now : ℚ) : RateLimiter :=
  let s1 := { s with minuteCalls := dropOld (now - 60) s.minuteCalls }
  if optTruthy s1.callsPerDay then
    { s1 with dayCalls := dropOld (now - 24 * 3600) s1.dayCalls }
  else s1

/-- Embeds `RateLimiter._refill`: the minute bucket gains
`int(elapsed_minutes * calls_per_minute)` tokens, capped at the burst size,
and the minute clock advances, but only when that integer is positive; the
day bucket resets fully once at least one day elapsed; finally the call
queues are pruned. -/
def refill (s : RateLimiter) (now : ℚ) : RateLimiter :=
  let elapsedMinutes : ℚ := (now - s.lastMinuteRefill) / 60
  let newTokens : ℤ := pyInt (elapsedMinutes * (s.callsPerMinute : ℚ))
  let s1 :=
    if newTokens > 0 then
      { s with
        minuteBucket := min s.burstSize (s.minuteBucket + newTokens)
        lastMinuteRefill := now }
    else s
  let s2 :=
    if optTruthy s1.callsPerDay then
      let elapsedDays : ℚ := (now - s1.lastDayRefill) / (24 * 3600)
      if 1 ≤ elapsedDays then
        { s1 with dayBucket := s1.callsPerDay, lastDayRefill := now }
      else s1
    else s1
  cleanupCalls s2 now

/-- Embeds `RateLimiter._get_minute_wait_time`: zero when no minute call is
recorded, otherwise `max 0 (60 - (now - oldest minute call))`. -/
def minuteWaitTime (s : RateLimiter) (now : ℚ) : ℚ :=
  match s.minuteCalls with
  | [] => 0
  | t :: _ => max 0 (60 - (now - t))

/-- Embeds `RateLimiter._get_day_wait_time`: zero when no day cap is
configured or no day call is recorded, otherwise
`max 0 (86400 - (now - oldest day call))`. -/
def dayWaitTime (s : RateLimiter) (now : ℚ) : ℚ :=
  if optTruthy s.callsPerDay then
    match s.dayCalls with
    | [] => 0
    | t :: _ => max 0 (24 * 3600 - (now - t))
  else 0

/-- The `RateLimitError` raised by `acquire`: message and integer
`retry_after` (the Python code applies `int()` to the wait time). -/
structure RateLimitErr where
  message : String
  retryAfter : ℤ
deriving Repr, DecidableEq

/-- Result of `RateLimiter.acquire`: either the updated limiter, or the
raised error together with the limiter state as mutated up to the raise
(the refill has already happened when the error is raised). -/
inductive AcquireResult where
  | ok : RateLimiter → AcquireResult
  | err : RateLimitErr → RateLimiter → AcquireResult
deriving Repr, DecidableEq

/-- Embeds `RateLimiter.acquire` at time `now`: refill, then fail when the
minute bucket is ≤ 0 (retry after the minute wait time), then fail when a
configured day bucket is ≤ 0, otherwise consume one minute token (and one
day token when a day cap is configured) and record the call time. -/
def acquire (s : RateLimiter) (now : ℚ) : AcquireResult :=
  let s := refill s now
  if s.minuteBucket ≤ 0 then
    .err ⟨"Rate limit exceeded", pyInt (minuteWaitTime s now)⟩ s
  else if (match s.dayBucket with | some d => decide (d ≤ 0) | none => false) then
    .err ⟨"Daily rate limit exceeded", pyInt (dayWaitTime s now)⟩ s
  else
    let s := { s with minuteBucket := s.minuteBucket - 1 }
    let s :=
      if optTruthy s.callsPerDay then
        { s with dayBucket := s.dayBucket.map (fun d => d - 1) }
      else s
    let s := { s with minuteCalls := s.minuteCalls ++ [now] }
    let s :=
      if optTruthy s.callsPerDay then { s with dayCalls := s.dayCalls ++ [now] }
      else s
    .ok s

/-- The method names defined on the `RateLimiter` class in
`rate_limiter.py` (there is no `release` method). -/
def rateLimiterMethods : List String :=
  ["__init__", "acquire", "_refill", "_cleanup_calls",
   "_get_minute_wait_time", "_get_day_wait_time",
   "get_remaining_calls", "wait_if_needed"]

/-- Python attribute lookup of a method on a `RateLimiter` instance:
returns the method name when the class defines it and raises
`AttributeError` otherwise. -/
def rateLimiterGetAttr (name : String) : Except String String :=
  if rateLimiterMethods.contains name then .ok name
  else .error ("AttributeError: RateLimiter object has no attribute " ++ name)

/-- The attribute of `self.rate_limiter` invoked in the `finally` blocks of
`AlphaVantageClient.fetch_data`, `get_intraday_data` and
`get_technical_indicators` in
`src/data_collection/src/providers/alpha_vantage/client.py`. -/
def fetchDataFinallyAttr : String := "release"

/-! ## Rate limiter lemmas -/

/-- State reached by a limiter built as `RateLimiter(calls_per_minute=5)` at
time 0 after some acquisitions in the first minute: bucket `b`, recorded
minute calls `cs`, untouched refill clocks. -/
def rlState (b : ℤ) (cs : List ℚ) : RateLimiter :=
  { callsPerMinute := 5, callsPerDay := none, burstSize := 5
    minuteBucket := b, dayBucket := none, lastMinuteRefill := 0
    lastDayRefill := 0, minuteCalls := cs, dayCalls := [] }

theorem dropOld_of_le (cutoff : ℚ) (cs : List ℚ) (h : ∀ c ∈ cs, cutoff ≤ c) :
    dropOld cutoff cs = cs := by
  cases cs with
  | nil => rfl
  | cons t ts =>
    have ht : cutoff ≤ t := h t (List.mem_cons_self t ts)
    simp [dropOld, not_lt.mpr ht]

theorem pyInt_eq_zero (q : ℚ) (h0 : 0 ≤ q) (h1 : q < 1) : pyInt q = 0 := by
  simp [pyInt, h0]
  exact h1

theorem pyInt_of_nonneg (q : ℚ) (h0 : 0 ≤ q) : pyInt q = ⌊q⌋ := by
  simp [pyInt, h0]

/-- Within the first second of the five-per-minute scenario, a refill adds
no token (the truncated increment is zero) and prunes nothing. -/
theorem refill_scenario_noop (b : ℤ) (cs : List ℚ) (t : ℚ)
    (ht0 : 0 ≤ t) (ht1 : t < 12) (hcs : ∀ c ∈ cs, t - 60 ≤ c) :
    refill (rlState b cs) t = rlState b cs := by
  have hq : (t - (0:ℚ)) / 60 * ((5:ℤ) : ℚ) = t / 12 := by push_cast; ring
  have htok : pyInt ((t - (0:ℚ)) / 60 * ((5:ℤ) : ℚ)) = 0 := by
    rw [hq]; exact pyInt_eq_zero _ (by linarith) (by linarith)
  have hdrop : dropOld (t - 60) cs = cs := dropOld_of_le _ _ hcs
  simp only [refill, cleanupCalls, rlState, optTruthy, htok]
  norm_num [hdrop]

/-- One successful acquisition in the first-second scenario: with a positive
bucket, a call time in `[0, 1)` and all recorded calls nonnegative, acquire
consumes one token and appends the call time. -/
theorem acquire_step_ok (b : ℤ) (cs : List ℚ) (t : ℚ)
    (hb : 0 < b) (ht0 : 0 ≤ t) (ht1 : t < 1) (hcs : ∀ c ∈ cs, 0 ≤ c) :
    acquire (rlState b cs) t = .ok (rlState (b - 1) (cs ++ [t])) := by
  have hcs60 : ∀ c ∈ cs, t - 60 ≤ c := fun c hc => by
    have := hcs c hc; linarith
  have hrefill := refill_scenario_noop b cs t ht0 (by linarith) hcs60
  simp only [acquire, hrefill]
  simp [rlState, optTruthy, not_le.mpr hb]

/-- Acquisition on an empty minute bucket in the first-second scenario
raises the rate-limit error; the truncated wait time is at least 59
seconds, hence positive. -/
theorem acquire_step_fail (cs : List ℚ) (c0 t : ℚ)
    (hc0 : 0 ≤ c0) (hcs : ∀ c ∈ cs, 0 ≤ c) (hc0t : c0 ≤ t) (ht1 : t < 1) :
    acquire (rlState 0 (c0 :: cs)) t =
      .err ⟨"Rate limit exceeded", pyInt (60 - (t - c0))⟩ (rlState 0 (c0 :: cs)) ∧
      59 ≤ pyInt (60 - (t - c0)) := by
  have hcs60 : ∀ c ∈ c0 :: cs, t - 60 ≤ c := by
    intro c hc
    rcases List.mem_cons.mp hc with h | h
    · subst h; linarith
    · have := hcs c h; linarith
  have hrefill := refill_scenario_noop 0 (c0 :: cs) t (by linarith) (by linarith) hcs60
  have hwait : minuteWaitTime (rlState 0 (c0 :: cs)) t = 60 - (t - c0) := by
    simp only [minuteWaitTime, rlState]
    rw [max_eq_right]
    linarith
  constructor
  · simp only [acquire, hrefill, hwait]
    simp [rlState]
  · rw [pyInt_of_nonneg _ (by linarith)]
    rw [Int.le_floor]
    push_cast
    linarith

/-- Acquisition on an empty minute bucket succeeds again once a full minute
elapsed since the last refill: the refill restores the full burst and one
token is consumed. -/
theorem acquire_step_recover (cs : List ℚ) (t : ℚ) (ht0 : 60 ≤ t) (ht1 : t < 61) :
    acquire (rlState 0 cs) t =
      .ok { callsPerMinute := 5, callsPerDay := none, burstSize := 5
            minuteBucket := 4, dayBucket := none, lastMinuteRefill := t
            lastDayRefill := 0, minuteCalls := dropOld (t - 60) cs ++ [t]
            dayCalls := [] } := by
  have hq : (t - (0:ℚ)) / 60 * ((5:ℤ) : ℚ) = t / 12 := by push_cast; ring
  have htok : pyInt ((t - (0:ℚ)) / 60 * ((5:ℤ) : ℚ)) = 5 := by
    rw [hq, pyInt_of_nonneg _ (by linarith)]
    rw [Int.floor_eq_iff]
    constructor
    · push_cast; linarith
    · push_cast; linarith
  simp only [acquire, refill, cleanupCalls, rlState, optTruthy, htok]
  norm_num

/-- Claim C2: for a RateLimiter built with `calls_per_minute = 5` and no
explicit burst size, any 5 consecutive `acquire()` calls within the first
second all succeed, the 6th raises `RateLimitExceeded` with
`retry_after > 0`, and after the clock advances by 60 seconds `acquire()`
succeeds again. -/
theorem rateLimiter_five_per_minute_scenario
    (t1 t2 t3 t4 t5 t6 : ℚ)
    (h0 : 0 ≤ t1) (h12 : t1 ≤ t2) (h23 : t2 ≤ t3) (h34 : t3 ≤ t4)
    (h45 : t4 ≤ t5) (h56 : t5 ≤ t6) (h6 : t6 < 1) :
    ∃ s1 s2 s3 s4 s5 s6 s7 e,
      acquire (mkRateLimiter 5 none none 0) t1 = .ok s1 ∧
      acquire s1 t2 = .ok s2 ∧
      acquire s2 t3 = .ok s3 ∧
      acquire s3 t4 = .ok s4 ∧
      acquire s4 t5 = .ok s5 ∧
      acquire s5 t6 = .err e s6 ∧
      e.message = "Rate limit exceeded" ∧ 0 < e.retryAfter ∧
      acquire s6 (t6 + 60) = .ok s7 := by
  have hmk : mkRateLimiter 5 none none 0 = rlState 5 [] := rfl
  have hfail := acquire_step_fail [t2, t3, t4, t5] t1 t6 h0
      (by intro c hc; simp at hc; rcases hc with rfl | rfl | rfl | rfl <;> linarith)
      (by linarith) h6
  have hrec := acquire_step_recover [t1, t2, t3, t4, t5] (t6 + 60)
      (by linarith) (by linarith)
  refine ⟨rlState 4 [t1], rlState 3 [t1, t2], rlState 2 [t1, t2, t3],
      rlState 1 [t1, t2, t3, t4], rlState 0 [t1, t2, t3, t4, t5],
      rlState 0 [t1, t2, t3, t4, t5], _,
      ⟨"Rate limit exceeded", pyInt (60 - (t6 - t1))⟩,
      ?_, ?_, ?_, ?_, ?_, ?_, rfl, ?_, hrec⟩
  · rw [hmk]
    exact acquire_step_ok 5 [] t1 (by norm_num) h0 (by linarith)
      (by intro c hc; simp at hc)
  · exact acquire_step_ok 4 [t1] t2 (by norm_num) (by linarith) (by linarith)
      (by intro c hc; simp at hc; subst hc; linarith)
  · exact acquire_step_ok 3 [t1, t2] t3 (by norm_num) (by linarith) (by linarith)
      (by intro c hc; simp at hc; rcases hc with rfl | rfl <;> linarith)
  · exact acquire_step_ok 2 [t1, t2, t3] t4 (by norm_num) (by linarith) (by linarith)
      (by intro c hc; simp at hc; rcases hc with rfl | rfl | rfl <;> linarith)
  · exact acquire_step_ok 1 [t1, t2, t3, t4] t5 (by norm_num) (by linarith) (by linarith)
      (by intro c hc; simp at hc; rcases hc with rfl | rfl | rfl | rfl <;> linarith)
  · exact hfail.1
  · have h59 := hfail.2
    show (0:ℤ) < pyInt (60 - (t6 - t1))
    omega

/-- Witness for claim C2 at the concrete call times
0, 1/10, 1/5, 3/10, 2/5 and 1/2 seconds. -/
theorem rateLimiter_five_per_minute_witness :
    ∃ s1 s2 s3 s4 s5 s6 s7 e,
      acquire (mkRateLimiter 5 none none 0) 0 = .ok s1 ∧
      acquire s1 (1/10) = .ok s2 ∧
      acquire s2 (1/5) = .ok s3 ∧
      acquire s3 (3/10) = .ok s4 ∧
      acquire s4 (2/5) = .ok s5 ∧
      acquire s5 (1/2) = .err e s6 ∧
      e.message = "Rate limit exceeded" ∧ 0 < e.retryAfter ∧
      acquire s6 (1/2 + 60) = .ok s7 :=
  rateLimiter_five_per_minute_scenario 0 (1/10) (1/5) (3/10) (2/5) (1/2)
    (by norm_num) (by norm_num) (by norm_num) (by norm_num) (by norm_num)
    (by norm_num) (by norm_num)

theorem cleanupCalls_minuteBucket (s : RateLimiter) (now : ℚ) :
    (cleanupCalls s now).minuteBucket = s.minuteBucket := by
  simp only [cleanupCalls]
  split <;> rfl

/-- The minute bucket after a refill: capped increment by the truncated
token count when that count is positive, unchanged otherwise. -/
theorem refill_minuteBucket (s : RateLimiter) (now : ℚ) :
    (refill s now).minuteBucket =
      if 0 < pyInt ((now - s.lastMinuteRefill) / 60 * (s.callsPerMinute : ℚ))
      then min s.burstSize
        (s.minuteBucket + pyInt ((now - s.lastMinuteRefill) / 60 * (s.callsPerMinute : ℚ)))
      else s.minuteBucket := by
  simp only [refill, cleanupCalls_minuteBucket]
  split_ifs <;> rfl

/-- Claim C7 as amended: on every refill with a nonnegative rate, a clock
that does not run backwards and a bucket within capacity, the minute token
count becomes `min(burstSize, previousTokens + int(elapsedMinutes * rate))`
with the added amount truncated to an integer (not fractional), and the
token count never exceeds the capacity. -/
theorem refill_minute_truncation (s : RateLimiter) (now : ℚ)
    (hclock : s.lastMinuteRefill ≤ now) (hrate : 0 ≤ s.callsPerMinute)
    (hcap : s.minuteBucket ≤ s.burstSize) :
    (refill s now).minuteBucket
        = min s.burstSize
            (s.minuteBucket + pyInt ((now - s.lastMinuteRefill) / 60 * (s.callsPerMinute : ℚ)))
      ∧ (refill s now).minuteBucket ≤ s.burstSize := by
  set n := pyInt ((now - s.lastMinuteRefill) / 60 * (s.callsPerMinute : ℚ)) with hn
  have hq : (0:ℚ) ≤ (now - s.lastMinuteRefill) / 60 * (s.callsPerMinute : ℚ) := by
    apply mul_nonneg
    · apply div_nonneg (by linarith) (by norm_num)
    · exact_mod_cast hrate
  have hn0 : 0 ≤ n := by
    rw [hn, pyInt_of_nonneg _ hq]
    exact Int.floor_nonneg.mpr hq
  rw [refill_minuteBucket, ← hn]
  by_cases hpos : 0 < n
  · rw [if_pos hpos]
    exact ⟨rfl, min_le_left _ _⟩
  · have hz : n = 0 := le_antisymm (not_lt.mp hpos) hn0
    rw [if_neg hpos, hz, add_zero, min_eq_right hcap]
    exact ⟨rfl, hcap⟩

/-- Witness for the amended claim C7 at a concrete state: bucket 3 of a
burst capacity of 5, refilled 6 seconds after the last refill. -/
theorem refill_minute_truncation_witness :
    (rlState 3 []).lastMinuteRefill ≤ 6 ∧ (0:ℤ) ≤ (rlState 3 []).callsPerMinute ∧
      (rlState 3 []).minuteBucket ≤ (rlState 3 []).burstSize ∧
      ((refill (rlState 3 []) 6).minuteBucket
          = min (rlState 3 []).burstSize
              ((rlState 3 []).minuteBucket +
                pyInt ((6 - (rlState 3 []).lastMinuteRefill) / 60 *
                  ((rlState 3 []).callsPerMinute : ℚ)))
        ∧ (refill (rlState 3 []) 6).minuteBucket ≤ (rlState 3 []).burstSize) :=
  ⟨by norm_num [rlState], by norm_num [rlState], by norm_num [rlState],
    refill_minute_truncation (rlState 3 []) 6 (by norm_num [rlState])
      (by norm_num [rlState]) (by norm_num [rlState])⟩

/-- Modelled from the claim wording, for comparison with the source refill:
fractional linear refill over the rationals,
`min(burstSize, previousTokens + elapsedMinutes * callsPerMinute)`. -/
def refillMinuteSpec (burst prev elapsedMinutes rate : ℚ) : ℚ :=
  min burst (prev + elapsedMinutes * rate)

/-- Counterexample to claim C7 as stated: after one acquisition the bucket
holds 4 of 5 tokens; a refill 6 seconds later leaves it at 4, while the
claimed fractional formula yields 4.5 — the refill increment is truncated
by `int()`, not fractional. -/
theorem refill_fractional_counterexample :
    acquire (mkRateLimiter 5 none none 0) 0 = .ok (rlState 4 [0]) ∧
    ((refill (rlState 4 [0]) 6).minuteBucket : ℚ) = 4 ∧
    refillMinuteSpec 5 4 ((6 - 0) / 60) 5 = 9 / 2 ∧
    ((4 : ℚ) ≠ 9 / 2) := by
  refine ⟨?_, ?_, ?_, by norm_num⟩
  · have h := acquire_step_ok 5 [] 0 (by norm_num) (by norm_num) (by norm_num)
      (by intro c hc; simp at hc)
    simpa using h
  · rw [refill_minuteBucket]
    norm_num [rlState, pyInt]
  · norm_num [refillMinuteSpec, min_def]

/-! ## CacheManager (`src/data_collection/src/utils/cache_manager.py`)

The memory tier models `cachetools.TTLCache` as an association list of
`(key, value, insertion time)` with the tier-global TTL checked on read
(size-bound eviction is not exercised by any claim and is not modelled;
stored values are the dictionaries the repository caches, never Python
`None`, so an entry hit always passes the `value is not None` test).
The disk tier models the cache directory as an association list from key
to file contents. -/

/-- Contents of one disk cache file `key.cache`: either the record written
by `_write_to_disk` — value, the `strftime`-formatted timestamp string and
the optional integer ttl — or a corrupt file whose `read_text`/`json.loads`
raises (I/O or decoding error with the given message). -/
inductive DiskFile (α : Type) where
  | record : α → String → Option ℤ → DiskFile α
  | corrupt : String → DiskFile α
deriving Repr, DecidableEq

/-- State of a `CacheManager`: memory tier, its tier-global TTL, the
optional disk tier (`none` when no cache directory is configured), and the
hit/miss statistics. -/
structure CacheState (α : Type) where
  memory : List (String × α × ℚ)
  memoryTtl : ℚ
  disk : Option (List (String × DiskFile α))
  memoryHits : ℕ
  memoryMisses : ℕ
  diskHits : ℕ
  diskMisses : ℕ
deriving Repr, DecidableEq

/-- Embeds `TTLCache.get`: the stored value when the key is present and
its age is still below the tier TTL, `None` otherwise. -/
def memGet {α : Type} (mem : List (String × α × ℚ)) (ttl : ℚ) (now : ℚ)
    (key : String) : Option α :=
  match mem.find? (fun e => e.1 == key) with
  | some (_, v, t) => if now - t < ttl then some v else none
  | none => none

/-- Embeds `TTLCache.__setitem__`: update the entry in place when the key
is present (resetting its insertion time), append it otherwise. -/
def memSet {α : Type} (mem : List (String × α × ℚ)) (now : ℚ) (key : String)
    (v : α) : List (String × α × ℚ) :=
  if (mem.find? (fun e => e.1 == key)).isSome
  then mem.map (fun e => if e.1 == key then (key, v, now) else e)
  else mem ++ [(key, v, now)]

/-- Models `datetime.fromtimestamp(time.time()).strftime("%Y-%m-%d %H:%M:%S")`
in `_write_to_disk`: the write time rendered as a string.  The exact
rendering is irrelevant to every consumer in the source, because the only
read of this field subtracts it from a float, which raises `TypeError` for
any string operand. -/
def formatTimestamp (t : ℚ) : String :=
  toString t.num ++ "/" ++ toString t.den

/-- Python evaluation of `time.time() - cache_data["timestamp"]` in
`_read_from_disk`, where the stored timestamp is the `strftime` string:
`float.__sub__` (and `str.__rsub__`) are undefined for a `str` operand, so
the subtraction raises `TypeError` unconditionally. -/
def pyFloatSubStr (_now : ℚ) (_ts : String) : Except String ℚ :=
  .error ("TypeError: unsupported operand type(s) for -: float and str")

/-- Embeds the file write of `_write_to_disk`: `write_text` replaces the
file for the key when it exists and creates it otherwise. -/
def diskWrite {α : Type} (files : List (String × DiskFile α)) (key : String)
    (v : α) (ts : String) (ttl : Option ℤ) : List (String × DiskFile α) :=
  if (files.find? (fun e => e.1 == key)).isSome
  then files.map (fun e => if e.1 == key then (key, DiskFile.record v ts ttl) else e)
  else files ++ [(key, DiskFile.record v ts ttl)]

/-- Embeds `_delete_from_disk`: unlink the file for the key when it
exists. -/
def deleteFromDisk {α : Type} (files : List (String × DiskFile α))
    (key : String) : List (String × DiskFile α) :=
  files.filter (fun e => !(e.1 == key))

/-- The `try` body of `_read_from_disk`: missing file yields `None`; a
corrupt file raises; a record with a truthy ttl computes the age as
`time.time() - timestamp` (which raises `TypeError`, the timestamp being a
string) and would delete the record and yield `None` when the age exceeded
the ttl; a record with no (or zero, hence falsy) ttl yields its value. -/
def readFromDiskTry {α : Type} (files : List (String × DiskFile α))
    (now : ℚ) (key : String) :
    Except String (Option α × List (String × DiskFile α)) :=
  match files.find? (fun e => e.1 == key) with
  | none => .ok (none, files)
  | some (_, DiskFile.corrupt msg) => .error msg
  | some (_, DiskFile.record v ts ttl) =>
    if optTruthy ttl then
      match pyFloatSubStr now ts with
      | .error e => .error e
      | .ok age =>
        if ((ttl.getD 0 : ℤ) : ℚ) < age then .ok (none, deleteFromDisk files key)
        else .ok (some v, files)
    else .ok (some v, files)

/-- Embeds `_read_from_disk`: its `except` clause catches every exception
from the `try` body, logs it and returns `None` with the directory
unchanged. -/
def readFromDisk {α : Type} (files : List (String × DiskFile α)) (now : ℚ)
    (key : String) : Option α × List (String × DiskFile α) :=
  match readFromDiskTry files now key with
  | .ok r => r
  | .error _ => (none, files)

/-- Embeds the body of `CacheManager.get`: memory tier first (hit when the
value `is not None`), then the disk tier when configured, promoting a disk
hit into the memory tier; statistics updated along the way. -/
def CacheState.get {α : Type} (s : CacheState α) (now : ℚ) (key : String) :
    Option α × CacheState α :=
  match memGet s.memory s.memoryTtl now key with
  | some v => (some v, { s with memoryHits := s.memoryHits + 1 })
  | none =>
    let s1 := { s with memoryMisses := s.memoryMisses + 1 }
    match s1.disk with
    | none => (none, s1)
    | some files =>
      match readFromDisk files now key with
      | (some v, files2) =>
        (some v, { s1 with
            diskHits := s1.diskHits + 1
            memory := memSet s1.memory now key v
            disk := some files2 })
      | (none, files2) =>
        (none, { s1 with diskMisses := s1.diskMisses + 1, disk := some files2 })

/-- Embeds `CacheManager.set`: write to the memory tier and, when a disk
tier is configured, persist the record with the formatted write time and
the optional per-entry ttl. -/
def CacheState.set {α : Type} (s : CacheState α) (now : ℚ) (key : String)
    (v : α) (ttl : Option ℤ) : CacheState α :=
  let s1 := { s with memory := memSet s.memory now key v }
  match s1.disk with
  | none => s1
  | some files =>
    { s1 with disk := some (diskWrite files key v (formatTimestamp now) ttl) }

/-- The `CacheError` exception: message and the operation name passed as
its second constructor argument. -/
structure CacheErr where
  message : String
  operation : String
deriving Repr, DecidableEq

/-- Embeds `CacheManager.get` together with its `try`/`except` wrapper,
which re-raises any body exception as `CacheError(•, "get")`.  Every
operation in the body is total — memory-tier access and statistics cannot
fail, and `_read_from_disk` catches its own exceptions and returns `None`
— so the `except` branch is unreachable and `get` always returns. -/
def cacheGet {α : Type} (s : CacheState α) (now : ℚ) (key : String) :
    Except CacheErr (Option α × CacheState α) :=
  .ok (s.get now key)

/-- A fresh cache manager over natural-number payloads with the default
memory TTL of 300 seconds and a configured, initially empty disk tier. -/
def emptyCacheDisk : CacheState ℕ :=
  { memory := [], memoryTtl := 300, disk := some []
    memoryHits := 0, memoryMisses := 0, diskHits := 0, diskMisses := 0 }

/-- Claim C3: evaluation of the code at the claimed scenario.  After
`set("k", v, ttl=60)` with both tiers configured and clearing the memory
tier alone, `get("k")` does NOT return `v`: the disk record carries a
truthy ttl, so `_read_from_disk` computes `time.time() - timestamp` on the
string timestamp, the `TypeError` is swallowed and the read reports `None`;
the call counts a disk miss, not a disk hit, and nothing is promoted. -/
theorem cache_promotion_broken :
    (({ emptyCacheDisk.set 0 "k" 42 (some 60) with memory := [] } : CacheState ℕ).get 1 "k").1
        = none ∧
    (({ emptyCacheDisk.set 0 "k" 42 (some 60) with memory := [] } : CacheState ℕ).get 1 "k").2.diskHits
        = 0 ∧
    (({ emptyCacheDisk.set 0 "k" 42 (some 60) with memory := [] } : CacheState ℕ).get 1 "k").2.diskMisses
        = 1 := by
  norm_num [CacheState.get, CacheState.set, emptyCacheDisk, memGet, memSet,
    readFromDisk, readFromDiskTry, pyFloatSubStr, optTruthy, diskWrite]

/-- Claim C4: evaluation of the code at the claimed scenario.  After
`set("k", v, ttl=1)` and an elapse of 2 time units, `get("k")` still
returns `v` from the memory tier (whose TTL is the tier-global 300, not the
per-entry 1); and even past the memory TTL (elapse 302), when the value is
reported absent, the stale durable record is NOT deleted — the TTL check
in `_read_from_disk` raises `TypeError` on the string timestamp before the
deletion branch can run, and the exception is swallowed. -/
theorem ttl_expiry_broken :
    ((emptyCacheDisk.set 0 "k" 42 (some 1)).get 2 "k").1 = some 42 ∧
    ((emptyCacheDisk.set 0 "k" 42 (some 1)).get 302 "k").1 = none ∧
    ((emptyCacheDisk.set 0 "k" 42 (some 1)).get 302 "k").2.disk
        = some [("k", DiskFile.record 42 (formatTimestamp 0) (some 1))] := by
  norm_num [CacheState.get, CacheState.set, emptyCacheDisk, memGet, memSet,
    readFromDisk, readFromDiskTry, pyFloatSubStr, optTruthy, diskWrite]

/-- A cache manager whose disk tier holds one unreadable file for `"k"`. -/
def corruptDiskCache : CacheState ℕ :=
  { memory := [], memoryTtl := 300
    disk := some [("k", DiskFile.corrupt ("OSError: disk read failure"))]
    memoryHits := 0, memoryMisses := 0, diskHits := 0, diskMisses := 0 }

/-- Counterexample to claim C5 as stated: with a disk file whose read
raises an I/O error, `get("k")` does not raise `CacheError` — it returns
absent and counts a disk miss, silently converting the failure into a
miss. -/
theorem diskError_becomes_miss_counterexample :
    cacheGet corruptDiskCache 0 "k" =
      .ok (none, { corruptDiskCache with memoryMisses := 1, diskMisses := 1 }) := by
  norm_num [cacheGet, CacheState.get, corruptDiskCache, memGet,
    readFromDisk, readFromDiskTry]

/-- Claim C5 as amended: `get` never raises `CacheError` — every disk-tier
read failure is caught inside `_read_from_disk`, logged, and converted
into an absent result counted as a disk miss. -/
theorem cacheGet_never_raises {α : Type} (s : CacheState α) (now : ℚ) (key : String) :
    (∃ r, cacheGet s now key = .ok r) ∧
    (∀ files msg, memGet s.memory s.memoryTtl now key = none →
      s.disk = some files →
      files.find? (fun e => e.1 == key) = some (key, DiskFile.corrupt msg) →
      cacheGet s now key =
        .ok (none, { s with memoryMisses := s.memoryMisses + 1
                            diskMisses := s.diskMisses + 1 })) := by
  constructor
  · exact ⟨_, rfl⟩
  · intro files msg hmem hdisk hfind
    simp [cacheGet, CacheState.get, hmem, hdisk, readFromDisk, readFromDiskTry, hfind]

/-- Witness for the amended claim C5 at the concrete corrupt-disk cache. -/
theorem cacheGet_never_raises_witness :
    (∃ r, cacheGet corruptDiskCache 0 "k" = Except.ok r) ∧
    cacheGet corruptDiskCache 0 "k" =
      .ok (none, { corruptDiskCache with memoryMisses := 1, diskMisses := 1 }) := by
  refine ⟨(cacheGet_never_raises corruptDiskCache 0 "k").1, ?_⟩
  have h := (cacheGet_never_raises corruptDiskCache 0 "k").2
      [("k", DiskFile.corrupt ("OSError: disk read failure"))]
      ("OSError: disk read failure") (by rfl) (by rfl) (by rfl)
  simpa using h

/-- Claim C6: the `finally` block of `AlphaVantageClient.fetch_data` calls
`self.rate_limiter.release()`, but the `RateLimiter` class defines no
`release` method, so the attribute lookup raises `AttributeError` — the
call is not the no-op the specification describes. -/
theorem release_attribute_missing :
    rateLimiterGetAttr fetchDataFinallyAttr =
      .error ("AttributeError: RateLimiter object has no attribute release") := by
  rfl

/-! ## DataCollector (`src/data_collection/src/services/data_collector.py`) -/

/-- Embeds the historical cache key of `DataCollector.collect_data`: the
f-string interpolation of provider name, symbol and the two date strings,
joined by underscores. -/
def cacheKey (providerName symbol startDate endDate : String) : String :=
  providerName ++ "_" ++ symbol ++ "_" ++ startDate ++ "_" ++ endDate

/-- Embeds the task key of the real-time collection methods: the f-string
interpolation of provider name and symbol joined by an underscore. -/
def taskKey (providerName symbol : String) : String :=
  providerName ++ "_" ++ symbol

/-- Embeds `DataCollector.start_real_time_collection` restricted to the
task registry: raise `DataCollectionError` when the key is registered,
otherwise register it (the polling loop itself is concurrency and lives
outside this state transition). -/
def startRealTimeCollection (tasks : List String) (symbol providerName : String) :
    Except String (List String) :=
  if taskKey providerName symbol ∈ tasks then
    .error ("Collection already running for " ++ taskKey providerName symbol)
  else .ok (tasks ++ [taskKey providerName symbol])

/-- Embeds `DataCollector.stop_real_time_collection`: cancel and deregister
the task when the key is registered, log a warning and return normally
otherwise; the body cannot raise, so the `except` re-raise branch is
unreachable and the call always returns. -/
def stopRealTimeCollection (tasks : List String) (symbol providerName : String) :
    Except String (List String) :=
  if taskKey providerName symbol ∈ tasks then
    .ok (tasks.erase (taskKey providerName symbol))
  else .ok tasks

/-- Claim C8: starting a `(provider, symbol)` pair whose task is already
registered raises the duplicate-task error; stopping an unregistered pair
returns without error and changes nothing; stopping a registered pair
deregisters it, after which a new start succeeds. -/
theorem poll_lifecycle (tasks : List String) (symbol providerName : String)
    (hnd : tasks.Nodup) :
    (taskKey providerName symbol ∈ tasks →
      startRealTimeCollection tasks symbol providerName
        = .error ("Collection already running for " ++ taskKey providerName symbol)) ∧
    (taskKey providerName symbol ∉ tasks →
      stopRealTimeCollection tasks symbol providerName = .ok tasks) ∧
    (taskKey providerName symbol ∈ tasks →
      stopRealTimeCollection tasks symbol providerName
          = .ok (tasks.erase (taskKey providerName symbol)) ∧
      taskKey providerName symbol ∉ tasks.erase (taskKey providerName symbol) ∧
      startRealTimeCollection (tasks.erase (taskKey providerName symbol)) symbol providerName
          = .ok (tasks.erase (taskKey providerName symbol) ++ [taskKey providerName symbol])) := by
  refine ⟨fun hmem => ?_, fun hout => ?_, fun hmem => ⟨?_, ?_, ?_⟩⟩
  · simp [startRealTimeCollection, hmem]
  · simp [stopRealTimeCollection, hout]
  · simp [stopRealTimeCollection, hmem]
  · intro hcontra
    exact ((List.Nodup.mem_erase_iff hnd).mp hcontra).1 rfl
  · have : taskKey providerName symbol ∉ tasks.erase (taskKey providerName symbol) := by
      intro hcontra
      exact ((List.Nodup.mem_erase_iff hnd).mp hcontra).1 rfl
    simp [startRealTimeCollection, this]

/-- Witness for claim C8: registry `["p_X"]` for provider `"p"` and symbol
`"X"` — a second start fails, stop deregisters, a stop on the empty
registry is a no-op, and a fresh start succeeds. -/
theorem poll_lifecycle_witness :
    startRealTimeCollection ["p_X"] "X" "p"
        = .error ("Collection already running for p_X") ∧
    stopRealTimeCollection ["p_X"] "X" "p" = .ok [] ∧
    stopRealTimeCollection [] "X" "p" = .ok [] ∧
    startRealTimeCollection [] "X" "p" = .ok ["p_X"] := by
  have h := poll_lifecycle ["p_X"] "X" "p" (by decide)
  have h0 := poll_lifecycle [] "X" "p" (by decide)
  have hmem : taskKey ("p") ("X") ∈ ["p_X"] := by decide
  have hout : taskKey ("p") ("X") ∉ ([] : List String) := by decide
  refine ⟨?_, ?_, ?_, ?_⟩
  · exact h.1 hmem
  · simpa using (h.2.2 hmem).1
  · exact h0.2.1 hout
  · simpa using (h.2.2 hmem).2.2

/-- Per-symbol outcome entry of `collect_batch_data`: success with the
collected data, or failure with the stringified exception. -/
inductive BatchEntry (α : Type) where
  | success : α → BatchEntry α
  | failure : String → BatchEntry α
deriving Repr, DecidableEq

/-- The entry built by the result-processing loop of `collect_batch_data`
from one symbol's outcome. -/
def batchEntryOf {α : Type} (r : Except String α) : BatchEntry α :=
  match r with
  | .ok d => .success d
  | .error e => .failure e

/-- Python dict insertion `d[k] = v`: update the value in place (keeping
the key's insertion position) when the key is present, append otherwise. -/
def dictInsert {β : Type} (m : List (String × β)) (k : String) (v : β) :
    List (String × β) :=
  if (m.find? (fun e => e.1 == k)).isSome
  then m.map (fun e => if e.1 == k then (k, v) else e)
  else m ++ [(k, v)]

/-- Embeds `DataCollector.collect_batch_data`: one task per symbol in input
order, gathered with `return_exceptions=True` (so sibling failures never
propagate), then folded into the result dict in input order.  The
per-symbol collection outcome is abstracted as `collect`. -/
def collectBatchData {α : Type} (symbols : List String)
    (collect : String → Except String α) : List (String × BatchEntry α) :=
  symbols.foldl (fun acc sym => dictInsert acc sym (batchEntryOf (collect sym))) []

theorem dictInsert_of_not_mem {β : Type} (m : List (String × β)) (k : String) (v : β)
    (h : ∀ e ∈ m, e.1 ≠ k) : dictInsert m k v = m ++ [(k, v)] := by
  have hfind : m.find? (fun e => e.1 == k) = none := by
    rw [List.find?_eq_none]
    intro e he
    simpa using h e he
  simp [dictInsert, hfind]

theorem collectBatch_aux {α : Type} (symbols : List String)
    (collect : String → Except String α) (acc : List (String × BatchEntry α))
    (hnd : symbols.Nodup) (hdisj : ∀ sym ∈ symbols, ∀ e ∈ acc, e.1 ≠ sym) :
    symbols.foldl (fun acc sym => dictInsert acc sym (batchEntryOf (collect sym))) acc
      = acc ++ symbols.map (fun sym => (sym, batchEntryOf (collect sym))) := by
  induction symbols generalizing acc with
  | nil => simp
  | cons s rest ih =>
    have hs : ∀ e ∈ acc, e.1 ≠ s :=
      fun e he => hdisj s (List.mem_cons_self s rest) e he
    have hins := dictInsert_of_not_mem acc s (batchEntryOf (collect s)) hs
    have hnd' : rest.Nodup := (List.nodup_cons.mp hnd).2
    have hdisj' : ∀ sym ∈ rest, ∀ e ∈ acc ++ [(s, batchEntryOf (collect s))], e.1 ≠ sym := by
      intro sym hsym e he
      rcases List.mem_append.mp he with h | h
      · exact hdisj sym (List.mem_cons_of_mem s hsym) e h
      · simp at h
        subst h
        intro hcontra
        have hseq : s = sym := hcontra
        exact (List.nodup_cons.mp hnd).1 (by rw [hseq]; exact hsym)
    calc (s :: rest).foldl (fun acc sym => dictInsert acc sym (batchEntryOf (collect sym))) acc
        = rest.foldl (fun acc sym => dictInsert acc sym (batchEntryOf (collect sym)))
            (acc ++ [(s, batchEntryOf (collect s))]) := by rw [List.foldl_cons, hins]
      _ = acc ++ [(s, batchEntryOf (collect s))]
            ++ rest.map (fun sym => (sym, batchEntryOf (collect sym))) :=
          ih (acc ++ [(s, batchEntryOf (collect s))]) hnd' hdisj'
      _ = acc ++ (s :: rest).map (fun sym => (sym, batchEntryOf (collect sym))) := by simp

/-- Claim C1: for every symbol list (without duplicate keys, as a mapping
has) and every per-symbol outcome function, `collect_batch_data` returns —
it cannot raise, being a total function — the mapping that associates, in
input symbol order, each symbol with its own success entry or failure
entry; each entry depends only on that symbol's own outcome, so one
symbol's failure never affects a sibling's entry. -/
theorem collectBatchData_isolates {α : Type} (symbols : List String)
    (collect : String → Except String α) (hnd : symbols.Nodup) :
    collectBatchData symbols collect
      = symbols.map (fun sym => (sym, batchEntryOf (collect sym))) := by
  have h := collectBatch_aux symbols collect [] hnd (by intro sym hsym e he; simp at he)
  simpa [collectBatchData] using h

/-- A provider outcome that fails only for the symbol `"B"`. -/
def demoBatchCollect : String → Except String ℕ :=
  fun sym => if sym == "B" then .error ("boom") else .ok 1

/-- Witness for claim C1: the spec exemplar — `["A", "B", "C"]` with a
provider failing only for `"B"` yields success entries for `"A"` and
`"C"` and a failure entry carrying the error for `"B"`. -/
theorem collectBatchData_isolates_witness :
    (["A", "B", "C"] : List String).Nodup ∧
    collectBatchData ["A", "B", "C"] demoBatchCollect
      = [("A", BatchEntry.success 1), ("B", BatchEntry.failure ("boom")),
         ("C", BatchEntry.success 1)] := by
  constructor
  · decide
  · rw [collectBatchData_isolates ["A", "B", "C"] demoBatchCollect (by decide)]
    rfl

/-- Lists of characters that avoid the separator split uniquely around the
first separator occurrence. -/
theorem sep_split (a b : List Char) : ∀ (a' b' : List Char), '_' ∉ a → '_' ∉ a' →
    a ++ '_' :: b = a' ++ '_' :: b' → a = a' ∧ b = b' := by
  induction a with
  | nil =>
    intro a' b' _ ha' h
    cases a' with
    | nil => simpa using h
    | cons y ys =>
      simp at h
      exact ((ha' (by rw [h.1]; exact List.mem_cons_self y ys)).elim : [] = y :: ys ∧ b = b')
  | cons x xs ih =>
    intro a' b' ha ha' h
    cases a' with
    | nil =>
      simp at h
      exact ((ha (by rw [← h.1]; exact List.mem_cons_self x xs)).elim : x :: xs = [] ∧ b = b')
    | cons y ys =>
      simp at h
      obtain ⟨hxy, hrest⟩ := h
      have hxs : '_' ∉ xs := fun hm => ha (List.mem_cons_of_mem _ hm)
      have hys : '_' ∉ ys := fun hm => ha' (List.mem_cons_of_mem _ hm)
      obtain ⟨h1, h2⟩ := ih ys b' hxs hys hrest
      exact ⟨by rw [hxy, h1], h2⟩

/-- Claim C9 as amended: the historical cache key is deterministic, and it
is injective provided the provider name, the symbol and the first date
rendering contain no underscore (the `str(datetime)` renderings never do;
provider names and symbols with underscores can collide, see the
counterexample). -/
theorem cacheKey_deterministic_and_injective
    (p s d1 d2 p' s' d1' d2' : String)
    (hp : '_' ∉ p.data) (hs : '_' ∉ s.data) (hd1 : '_' ∉ d1.data)
    (hp' : '_' ∉ p'.data) (hs' : '_' ∉ s'.data) (hd1' : '_' ∉ d1'.data) :
    cacheKey p s d1 d2 = cacheKey p s d1 d2 ∧
    (cacheKey p s d1 d2 = cacheKey p' s' d1' d2' →
      p = p' ∧ s = s' ∧ d1 = d1' ∧ d2 = d2') := by
  refine ⟨rfl, fun h => ?_⟩
  have hus : ("_" : String).data = ['_'] := rfl
  have hdata := congrArg String.data h
  simp only [cacheKey, String.data_append, hus, List.append_assoc,
    List.singleton_append] at hdata
  obtain ⟨h1, hrest1⟩ := sep_split p.data _ p'.data _ hp hp' hdata
  obtain ⟨h2, hrest2⟩ := sep_split s.data _ s'.data _ hs hs' hrest1
  obtain ⟨h3, h4⟩ := sep_split d1.data _ d1'.data _ hd1 hd1' hrest2
  exact ⟨String.ext h1, String.ext h2, String.ext h3, String.ext h4⟩

/-- Counterexample to claim C9 as stated: two distinct
`(provider, symbol, start, end)` tuples whose underscore-joined keys
coincide. -/
theorem cacheKey_collision_counterexample :
    cacheKey ("a") ("b_c") ("d") ("e") = cacheKey ("a_b") ("c") ("d") ("e") ∧
    (("a", "b_c", "d", "e") ≠ (("a_b", "c", "d", "e") : String × String × String × String)) := by
  constructor
  · rfl
  · decide

/-- Witness for the amended claim C9 at a concrete underscore-free tuple
with `str(datetime)`-shaped date renderings. -/
theorem cacheKey_injective_witness :
    cacheKey ("alpha") ("AAPL") ("2024-01-01 00:00:00") ("2024-06-30 00:00:00")
      = cacheKey ("alpha") ("AAPL") ("2024-01-01 00:00:00") ("2024-06-30 00:00:00") ∧
    (cacheKey ("alpha") ("AAPL") ("2024-01-01 00:00:00") ("2024-06-30 00:00:00")
      = cacheKey ("alpha") ("AAPL") ("2024-01-01 00:00:00") ("2024-06-30 00:00:00") →
      ("alpha" : String) = "alpha" ∧ ("AAPL" : String) = "AAPL" ∧
      ("2024-01-01 00:00:00" : String) = "2024-01-01 00:00:00" ∧
      ("2024-06-30 00:00:00" : String) = "2024-06-30 00:00:00") :=
  cacheKey_deterministic_and_injective ("alpha") ("AAPL") ("2024-01-01 00:00:00")
    ("2024-06-30 00:00:00") ("alpha") ("AAPL") ("2024-01-01 00:00:00")
    ("2024-06-30 00:00:00") (by decide) (by decide) (by decide)
    (by decide) (by decide) (by decide)

/-- The provider contract consumed by `collect_data`: the outcome of
`fetch_data` for the fixed symbol and date range, `validate_response` and
`transform_data`. -/
structure Provider (α : Type) where
  fetchResult : Except String α
  validate : α → Bool
  transform : α → α

/-- Observable outcome of one `collect_data` call: the returned value or
raised error, the cache state afterwards, and whether the provider (and
hence its rate limiter, which only `fetch_data` touches) was contacted. -/
structure CollectOutcome (α : Type) where
  result : Except String α
  cache : CacheState α
  providerContacted : Bool

/-- Embeds steps 3 to 6 of `collect_data` (after the cache check): resolve
the provider (unknown name raises before any contact), fetch, validate —
a `False` verdict raises `Invalid response from provider` — transform, and
cache the transformed result when caching is enabled. -/
def providerPipeline {α : Type} (providers : List (String × Provider α))
    (cache : CacheState α) (now : ℚ) (key providerName : String)
    (useCache : Bool) : CollectOutcome α :=
  match providers.find? (fun e => e.1 == providerName) with
  | none => ⟨.error ("Unknown provider: " ++ providerName), cache, false⟩
  | some (_, p) =>
    match p.fetchResult with
    | .error e => ⟨.error e, cache, true⟩
    | .ok data =>
      if p.validate data then
        ⟨.ok (p.transform data),
          if useCache then cache.set now key (p.transform data) none else cache, true⟩
      else ⟨.error ("Invalid response from provider"), cache, true⟩

/-- Embeds `DataCollector.collect_data`: build the cache key; when caching
is enabled, consult the cache and return the cached value only when it is
truthy (`if cached_data:`); otherwise run the provider pipeline. -/
def collectData {α : Type} (providers : List (String × Provider α))
    (cache : CacheState α) (truthy : α → Bool) (now : ℚ)
    (symbol providerName startDate endDate : String) (useCache : Bool) :
    CollectOutcome α :=
  let key := cacheKey providerName symbol startDate endDate
  if useCache then
    match cache.get now key with
    | (some v, c1) =>
      if truthy v then ⟨.ok v, c1, false⟩
      else providerPipeline providers c1 now key providerName useCache
    | (none, c1) => providerPipeline providers c1 now key providerName useCache
  else providerPipeline providers cache now key providerName useCache

/-- Claim C10: with caching enabled, a cached value that is falsy is
treated as a miss — `collect_data` proceeds to the provider pipeline —
while a truthy cached value is returned as-is without contacting the
provider or its rate limiter. -/
theorem falsy_cached_value_is_miss {α : Type} (providers : List (String × Provider α))
    (cache : CacheState α) (truthy : α → Bool) (now : ℚ)
    (symbol providerName startDate endDate : String) (v : α) (c1 : CacheState α)
    (hget : cache.get now (cacheKey providerName symbol startDate endDate) = (some v, c1)) :
    (truthy v = false →
      collectData providers cache truthy now symbol providerName startDate endDate true
        = providerPipeline providers c1 now
            (cacheKey providerName symbol startDate endDate) providerName true) ∧
    (truthy v = true →
      collectData providers cache truthy now symbol providerName startDate endDate true
        = ⟨.ok v, c1, false⟩) := by
  constructor
  · intro hfalse
    simp [collectData, hget, hfalse]
  · intro htrue
    simp [collectData, hget, htrue]

/-- A provider that always succeeds with the payload 7. -/
def demoProvider : Provider ℕ :=
  { fetchResult := .ok 7, validate := fun _ => true, transform := fun d => d }

/-- A cache holding the falsy payload 0 (under Python truthiness of
integers) for the historical key of provider `"av"` and symbol `"AAPL"`. -/
def falsyCachedState : CacheState ℕ :=
  { memory := [(cacheKey ("av") ("AAPL") ("s") ("e"), 0, 0)], memoryTtl := 300
    disk := none, memoryHits := 0, memoryMisses := 0, diskHits := 0, diskMisses := 0 }

/-- Witness for claim C10: the cached 0 is served by the cache tier as a
memory hit, yet `collect_data` falls through to the provider pipeline and
contacts the provider. -/
theorem falsy_cached_value_is_miss_witness :
    falsyCachedState.get 1 (cacheKey ("av") ("AAPL") ("s") ("e"))
      = (some 0, { falsyCachedState with memoryHits := 1 }) ∧
    ((fun n => n != 0) (0:ℕ) = false →
      collectData [(("av"), demoProvider)] falsyCachedState (fun n => n != 0) 1
          ("AAPL") ("av") ("s") ("e") true
        = providerPipeline [(("av"), demoProvider)]
            { falsyCachedState with memoryHits := 1 } 1
            (cacheKey ("av") ("AAPL") ("s") ("e")) ("av") true) ∧
    (collectData [(("av"), demoProvider)] falsyCachedState (fun n => n != 0) 1
          ("AAPL") ("av") ("s") ("e") true).providerContacted = true := by
  have hget : falsyCachedState.get 1 (cacheKey ("av") ("AAPL") ("s") ("e"))
      = (some 0, { falsyCachedState with memoryHits := 1 }) := by
    norm_num [CacheState.get, falsyCachedState, memGet, cacheKey]
  have h := falsy_cached_value_is_miss [(("av"), demoProvider)] falsyCachedState
      (fun n => n != 0) 1 ("AAPL") ("av") ("s") ("e") 0
      { falsyCachedState with memoryHits := 1 } hget
  refine ⟨hget, fun hf => (h.1 hf), ?_⟩
  rw [h.1 (by rfl)]
  rfl

end InvestmentRag
